import Mathlib

/-!
Verification development for the product-price extraction pipeline
(`scraper.py`, `storage.py`, `download_images.py`, `main.py`).

The Python modules are shallowly embedded: Python strings are modelled as
`String`/`List Char` (a Python `str` is a sequence of code points), Python
floats as exact rationals `ℚ` plus an explicit positive-infinity marker
where the code uses `float("inf")`, dynamically typed CSV cells as an
inductive `Cell`, and effectful operations (file writes, HTTP requests) as
explicit traces / state passing with the network given as an oracle
parameter.

Simplifications, stated once here:
* `re`'s `\d` is modelled as the ASCII digits `0`-`9` (the data handled by
  the program is ASCII in the relevant positions);
* `float(...)` of a decimal literal is modelled as the exact rational value
  of the literal rather than the nearest binary double; no claim in this
  file depends on the final binary rounding step;
* pandas' `sort_values` is called by the code with its default
  `kind='quicksort'`, whose ordering of tied keys is unspecified; the
  embedding `load_and_sort_by_price` uses a deterministic sort and no
  theorem below relies on the relative order of tied rows.
-/

/-! ### Python string primitives -/

/-- Fuel-driven worker for `pyReplace`; the fuel only makes the recursion
structural and never runs out when it starts at the length of the string
(each step consumes at least one character). -/
def pyReplaceAux : Nat → List Char → List Char → List Char → List Char
  | 0, s, _, _ => s
  | _ + 1, [], _, _ => []
  | fuel + 1, c :: cs, pat, rep =>
    if pat ≠ [] ∧ pat.isPrefixOf (c :: cs) = true then
      rep ++ pyReplaceAux fuel ((c :: cs).drop pat.length) pat rep
    else
      c :: pyReplaceAux fuel cs pat rep

/-- Python `s.replace(pat, rep)`: replace every non-overlapping occurrence
of `pat` in `s` by `rep`, scanning left to right.  (The program never calls
`replace` with an empty pattern; for `pat = []` this model leaves the
string unchanged.) -/
def pyReplace (s pat rep : List Char) : List Char :=
  pyReplaceAux s.length s pat rep

/-- Python `s.strip("_")`: drop `'_'` from both ends. -/
def pyStripUnderscore (s : List Char) : List Char :=
  ((s.dropWhile (fun c => c = '_')).reverse.dropWhile (fun c => c = '_')).reverse

/-! ### storage.py — `_price_to_float` -/

/-- A pandas cell value as it occurs in this program: a string, the float
`NaN` that pandas substitutes for missing/NA fields, an `int64`, a float
(modelled as an exact rational) or a bool. -/
inductive Cell where
  | str : String → Cell
  | nan : Cell
  | int : Int → Cell
  | float : ℚ → Cell
  | bool : Bool → Cell
deriving Repr, DecidableEq

/-- The numeric sort key produced by `_price_to_float`: either a finite
float value (exact rational) or `float("inf")`. -/
inductive PriceKey where
  | val : ℚ → PriceKey
  | inf : PriceKey
deriving Repr, DecidableEq

/-- Comparison on sort keys as pandas orders float keys ascending:
`inf` is greater than every finite value and ties with itself. -/
def keyLE : PriceKey → PriceKey → Bool
  | _, PriceKey.inf => true
  | PriceKey.inf, PriceKey.val _ => false
  | PriceKey.val a, PriceKey.val b => a ≤ b

/-- The match of `\d+` at the current position: the maximal digit run. -/
def takeDigitRun (l : List Char) : List Char :=
  l.takeWhile Char.isDigit

/-- The regex `\d+(?:\.\d+)?` matched greedily at a position that starts
with a digit: maximal digit run, then optionally a dot followed by at
least one digit (again a maximal run). -/
def matchNumberAt (l : List Char) : List Char :=
  let d1 := l.takeWhile Char.isDigit
  match l.dropWhile Char.isDigit with
  | '.' :: r2 =>
    match r2 with
    | d :: _ => if d.isDigit then d1 ++ '.' :: r2.takeWhile Char.isDigit else d1
    | [] => d1
  | _ => d1

/-- `re.search(r"\d+(?:\.\d+)?", text)`: leftmost match.  The match, if
any, begins at the first digit of the string. -/
def firstNumber : List Char → Option (List Char)
  | [] => none
  | c :: cs => if c.isDigit then some (matchNumberAt (c :: cs)) else firstNumber cs

/-- Numeric value of a digit run, most significant digit first. -/
def digitsToNat (l : List Char) : Nat :=
  l.foldl (fun n c => 10 * n + (c.toNat - 48)) 0

/-- `float(m.group(0))` for a match of `\d+(?:\.\d+)?`, as an exact
rational: all digits over `10 ^ (number of fraction digits)`. -/
def parseDec (l : List Char) : ℚ :=
  match l.dropWhile Char.isDigit with
  | _ :: frac =>
    (digitsToNat (l.takeWhile Char.isDigit ++ frac) : ℚ) / ((10 : ℚ) ^ frac.length)
  | [] => (digitsToNat (l.takeWhile Char.isDigit) : ℚ)

/-- The intermediate `text` of `_price_to_float`: remove `"R$"`, remove
spaces, remove dots, then turn commas into dots (in that order). -/
def price_text (s : String) : List Char :=
  pyReplace (pyReplace (pyReplace (pyReplace s.toList ("R$".toList) []) [' '] []) ['.'] []) [','] ['.']

/-- `_price_to_float` restricted to genuine strings (the
`isinstance(preco, str)` branch).  The empty string is caught by the
`not preco` truthiness test. -/
def _price_to_float_str (preco : String) : PriceKey :=
  if preco = "" then PriceKey.inf
  else
    match firstNumber (price_text preco) with
    | some numtxt => PriceKey.val (parseDec numtxt)
    | none => PriceKey.inf

/-- `_price_to_float` on an arbitrary cell: `if not preco or not
isinstance(preco, str): return float("inf")` sends every non-string cell
(and the empty string) to infinity. -/
def _price_to_float (preco : Cell) : PriceKey :=
  match preco with
  | Cell.str s => _price_to_float_str s
  | _ => PriceKey.inf

/-- Recogniser for the subset of cells that are strings. -/
def cellIsStr : Cell → Bool
  | Cell.str _ => true
  | _ => false

/-! ### The listing record -/

/-- A listing record as produced by the sample data and consumed by
`save_to_csv` / `download_images`: five string fields. -/
structure Anuncio where
  titulo : String
  preco : String
  url : String
  loja : String
  imagem : String
deriving Repr, DecidableEq

/-! ### download_images.py -/

/-- Membership in the character class `[a-zA-Z0-9_-]` of `_slugify`'s
regex, decided on code points. -/
def allowedChar (c : Char) : Bool :=
  (97 ≤ c.toNat && c.toNat ≤ 122) || (65 ≤ c.toNat && c.toNat ≤ 90) ||
    (48 ≤ c.toNat && c.toNat ≤ 57) || c == '_' || c == '-'

/-- Worker for `re.sub(r"[^a-zA-Z0-9_-]+", "_", s)`: the flag records
whether the previous character belonged to a run already replaced by an
underscore. -/
def subRunsAux : Bool → List Char → List Char
  | _, [] => []
  | inRun, c :: cs =>
    if allowedChar c then c :: subRunsAux false cs
    else if inRun then subRunsAux true cs
    else '_' :: subRunsAux true cs

/-- `re.sub(r"[^a-zA-Z0-9_-]+", "_", s)`: every maximal run of characters
outside the class becomes a single underscore. -/
def reSubNonAlnum (s : List Char) : List Char :=
  subRunsAux false s

/-- `_slugify(name, maxlen)` from `download_images.py` (the call sites use
the default `maxlen = 60`). -/
def _slugify (name : List Char) (maxlen : Nat) : List Char :=
  let base := pyStripUnderscore (reSubNonAlnum name)
  (if base = [] then "imagem".toList else base).take maxlen

/-- `f"produto_{idx}"`. -/
def produtoName (idx : Nat) : String :=
  "produto_" ++ toString idx

/-- `title = item.get("titulo") or f"produto_{idx}"`: the generated name
replaces a missing or empty (falsy) title. -/
def titleFor (idx : Nat) (item : Anuncio) : String :=
  if item.titulo = "" then produtoName idx else item.titulo

/-- `f"{_slugify(title)}.jpg"` for the record at 1-based index `idx`. -/
def filenameFor (idx : Nat) (item : Anuncio) : List Char :=
  _slugify (titleFor idx item).toList 60 ++ ".jpg".toList

/-- Observable effects of one loop iteration of `download_images`: a file
write (name and content bytes) or an HTTP GET of an image URL.  The
`time.sleep` rate-limiting pause has no observable effect modelled here. -/
inductive FsAction where
  | writeFile : List Char → List Nat → FsAction
  | httpGet : String → FsAction
deriving Repr, DecidableEq

/-- One iteration of the `download_images` loop for the record at 1-based
index `idx`.  The network oracle returns the response body on success and
`none` when `requests.get`/`raise_for_status` raises. -/
def downloadStep (net : String → Option (List Nat)) (idx : Nat) (item : Anuncio) :
    List FsAction :=
  if item.imagem = "" then [FsAction.writeFile (filenameFor idx item) []]
  else
    match net item.imagem with
    | some bytes => [FsAction.httpGet item.imagem, FsAction.writeFile (filenameFor idx item) bytes]
    | none => [FsAction.httpGet item.imagem, FsAction.writeFile (filenameFor idx item) []]

/-- `download_images(items, directory)`: the trace of effects inside the
output directory, iterating over `enumerate(items, 1)`. -/
def download_images (net : String → Option (List Nat)) (items : List Anuncio) :
    List FsAction :=
  (List.enumFrom 1 items).flatMap (fun p => downloadStep net p.1 p.2)

/-! ### scraper.py — upstream values and price formatting -/

/-- A JSON value as handled by `fetch_ads` when reading a
`shopping_results` object: a string, a number (`int`/`float`, modelled as
an exact rational) or `null`/`None`.  (JSON booleans never occur in the
fields the code reads and are not modelled.) -/
inductive JVal where
  | jstr : String → JVal
  | jnum : ℚ → JVal
  | jnull : JVal
deriving Repr, DecidableEq

/-- Python truthiness of the modelled JSON values: `""`, `0` and `None`
are falsy. -/
def truthy : JVal → Bool
  | JVal.jstr s => if s = "" then false else true
  | JVal.jnum q => if q = 0 then false else true
  | JVal.jnull => false

/-- `a or b` where `a` is `obj.get(...)` (so `None` when the key is
missing) and `b` the right operand. -/
def orDefault (v : Option JVal) (w : JVal) : JVal :=
  match v with
  | some x => if truthy x then x else w
  | none => w

/-- Round to the nearest integer, ties to the even neighbour — the
rounding used by Python's `format(x, '.2f')` (on the exact value; the
binary-double rounding of the Python float is not modelled). -/
def roundHalfEven (q : ℚ) : Int :=
  if q - ⌊q⌋ < 1 / 2 then ⌊q⌋
  else if 1 / 2 < q - ⌊q⌋ then ⌊q⌋ + 1
  else if ⌊q⌋ % 2 = 0 then ⌊q⌋ else ⌊q⌋ + 1

/-- Decimal digits of `n`, most significant first, via structural fuel
(`n + 1` steps always suffice). -/
def natDigitsAux : Nat → Nat → List Char → List Char
  | 0, _, acc => acc
  | fuel + 1, n, acc =>
    if n < 10 then Nat.digitChar n :: acc
    else natDigitsAux fuel (n / 10) (Nat.digitChar (n % 10) :: acc)

/-- Decimal digits of `n`, most significant first. -/
def natDigits (n : Nat) : List Char :=
  natDigitsAux (n + 1) n []

/-- Insert `sep` after every third character of a reversed digit list. -/
def group3rev (sep : Char) : List Char → List Char
  | d1 :: d2 :: d3 :: d4 :: rest => d1 :: d2 :: d3 :: sep :: group3rev sep (d4 :: rest)
  | l => l

/-- Group a digit list with `sep` every three digits from the right, as
Python's `,` format flag does. -/
def group3 (sep : Char) (ds : List Char) : List Char :=
  (group3rev sep ds.reverse).reverse

/-- Exactly two decimal digits for the cents part `n < 100`. -/
def twoDigits (n : Nat) : List Char :=
  [Nat.digitChar (n / 10), Nat.digitChar (n % 10)]

/-- A two-decimal fixed-point rendering of `cents / 100` with thousands
separator `sep` and decimal mark `dec`. -/
def formatCents (sep dec : Char) (neg : Bool) (cents : Nat) : List Char :=
  (if neg then ['-'] else []) ++ group3 sep (natDigits (cents / 100)) ++ dec :: twoDigits (cents % 100)

/-- `f"{q:,.2f}"`: round to two decimals (ties to even), group the integer
part with `,`, decimal mark `.`. -/
def pyFormatComma2f (q : ℚ) : List Char :=
  formatCents ',' '.' (decide (q < 0)) (roundHalfEven (|q| * 100)).toNat

/-- The price formatting of `fetch_ads`:
`f"R$ {preco:,.2f}".replace(",", "X").replace(".", ",").replace("X", ".")`. -/
def format_price (q : ℚ) : String :=
  String.mk
    (pyReplace (pyReplace (pyReplace ("R$ ".toList ++ pyFormatComma2f q) [','] ['X']) ['.'] [','])
      ['X'] ['.'])

/-- Modelled from the spec: the locale currency string, `'R$ '` followed
by the value with exactly two decimal digits, `'.'` as thousands separator
and `','` as decimal separator (`1234.56 → "R$ 1.234,56"`). -/
def brlCurrency_spec (q : ℚ) : String :=
  String.mk ("R$ ".toList ++ formatCents '.' ',' (decide (q < 0)) (roundHalfEven (|q| * 100)).toNat)

/-! ### scraper.py — `_sample_data` and `fetch_ads` -/

/-- The five hard-coded sample listings (`exemplos` in `_sample_data`). -/
def exemplos : List Anuncio :=
  [⟨"Geladeira Consul Frost Free 340 litros", "R$ 1.899,00",
    "https://www.lojaexemplo.com/produto2", "Loja Exemplo 2",
    "https://via.placeholder.com/150?text=Produto2"⟩,
   ⟨"Geladeira Brastemp Frost Free Duplex 375 litros", "R$ 2.199,00",
    "https://www.lojaexemplo.com/produto1", "Loja Exemplo 1",
    "https://via.placeholder.com/150?text=Produto1"⟩,
   ⟨"Geladeira Electrolux Frost Free Inverse 454 litros", "R$ 3.299,00",
    "https://www.lojaexemplo.com/produto3", "Loja Exemplo 3",
    "https://via.placeholder.com/150?text=Produto3"⟩,
   ⟨"Geladeira Samsung Side by Side 501 litros", "R$ 4.499,00",
    "https://www.lojaexemplo.com/produto4", "Loja Exemplo 4",
    "https://via.placeholder.com/150?text=Produto4"⟩,
   ⟨"Geladeira LG Smart Inverter 437 litros", "R$ 3.999,00",
    "https://www.lojaexemplo.com/produto5", "Loja Exemplo 5",
    "https://via.placeholder.com/150?text=Produto5"⟩]

/-- `_sample_data()`: the five examples appended five times over (the
nested `for i in range(5): for item in exemplos` loop; the per-item
`.copy()` only avoids aliasing and is identity on values). -/
def _sample_data : List Anuncio :=
  (List.replicate 5 exemplos).flatten

/-- One upstream `shopping_results` object, restricted to the keys the
code reads. `none` models an absent key (`obj.get` returns `None`). -/
structure ShoppingResult where
  title : Option JVal
  price : Option JVal
  extracted_price : Option JVal
  product_link : Option JVal
  link : Option JVal
  source : Option JVal
  merchant : Option JVal
  thumbnail : Option JVal
  image : Option JVal
deriving Repr, DecidableEq

/-- A listing record as built by the API branch of `fetch_ads`: `preco` is
always a string, the other four fields carry whatever JSON value the
`or`-chains produced. -/
structure AnuncioJ where
  titulo : JVal
  preco : String
  url : JVal
  loja : JVal
  imagem : JVal
deriving Repr, DecidableEq

/-- `obj.get("price") or obj.get("extracted_price") or ""`. -/
def selectedPrice (obj : ShoppingResult) : JVal :=
  orDefault obj.price (orDefault obj.extracted_price (JVal.jstr ""))

/-- `str(preco)` for the values that can reach the non-numeric branch. -/
def pyStr : JVal → String
  | JVal.jstr s => s
  | JVal.jnum _ => ""
  | JVal.jnull => "None"

/-- The `preco_str` computation: numeric prices are reformatted, anything
else passes through `str`. -/
def mapPrecoStr (p : JVal) : String :=
  match p with
  | JVal.jnum q => format_price q
  | other => pyStr other

/-- The loop body of the API branch: one upstream object mapped to one
listing record. -/
def mapResult (obj : ShoppingResult) : AnuncioJ :=
  { titulo := obj.title.getD (JVal.jstr "")
    preco := mapPrecoStr (selectedPrice obj)
    url := orDefault obj.product_link (orDefault obj.link (JVal.jstr ""))
    loja := orDefault obj.source (orDefault obj.merchant (JVal.jstr ""))
    imagem := orDefault obj.thumbnail (orDefault obj.image (JVal.jstr "")) }

/-- Sample records as returned by `fetch_ads` (plain strings). -/
def anuncioToJ (a : Anuncio) : AnuncioJ :=
  ⟨JVal.jstr a.titulo, a.preco, JVal.jstr a.url, JVal.jstr a.loja, JVal.jstr a.imagem⟩

/-- Outcome of the single `requests.get` to the SerpApi endpoint:
`ok results` for a 2xx response whose JSON body yields the
`shopping_results` array ( `[]` when the key is absent), `fail` for any
raised exception (transport error, non-2xx, bad JSON). -/
inductive NetResult where
  | ok : List ShoppingResult → NetResult
  | fail : NetResult

/-- `chave = api_key or SERPAPI_KEY`. -/
def pyOrStr (a : Option String) (b : String) : String :=
  match a with
  | some s => if s = "" then b else s
  | none => b

/-- `fetch_ads(term, api_key)`.  `serpapi_key` is the module-level
`SERPAPI_KEY` (environment credential, already stripped); the network is
an oracle from the request's `q` and `api_key` parameters to an outcome. -/
def fetch_ads (net : String → String → NetResult) (serpapi_key : String)
    (term : String) (api_key : Option String) : List AnuncioJ :=
  let chave := pyOrStr api_key serpapi_key
  if chave = "" then _sample_data.map anuncioToJ
  else
    match net term chave with
    | NetResult.fail => _sample_data.map anuncioToJ
    | NetResult.ok results =>
      let anuncios := results.map mapResult
      if anuncios = [] then _sample_data.map anuncioToJ else anuncios

/-! ### storage.py — CSV round trip

The tabular file is modelled at the cell level: pandas' CSV quoting is
invertible, so `to_csv` keeps each field's string unchanged and the
lossy step is `read_csv`'s per-column type and NA inference, modelled by
`colMode`/`applyMode` below. -/

/-- The CSV file written by `save_to_csv`: a header (implicit — the five
fixed columns) and one row of five strings per record. -/
structure CsvFile where
  rows : List Anuncio
deriving Repr, DecidableEq

/-- `raise ValueError("A lista de itens está vazia; nada a salvar.")`. -/
inductive SaveError where
  | emptyInput
deriving Repr, DecidableEq

/-- `save_to_csv(items, filepath)`: the state of the target path before
and after.  The empty-input check raises before `df.to_csv` runs, so on
error the path's previous content (possibly absent) survives. -/
def save_to_csv (items : List Anuncio) (fs : Option CsvFile) :
    Option SaveError × Option CsvFile :=
  if items = [] then (some SaveError.emptyInput, fs)
  else (none, some ⟨items⟩)

/-- The default `na_values` markers of `pandas.read_csv`: such fields come
back as the float `NaN`. -/
def defaultNaValues : List String :=
  ["", "#N/A", "#N/A N/A", "#NA", "-1.#IND", "-1.#QNAN", "-NaN", "-nan",
   "1.#IND", "1.#QNAN", "<NA>", "N/A", "NA", "NULL", "NaN", "None", "n/a", "nan", "null"]

/-- Is the field an NA marker? -/
def isNA (s : String) : Bool :=
  defaultNaValues.contains s

/-- An optional sign followed by at least one digit. -/
def isSignedDigits (l : List Char) : Bool :=
  match l with
  | '+' :: rest => !rest.isEmpty && rest.all Char.isDigit
  | '-' :: rest => !rest.isEmpty && rest.all Char.isDigit
  | _ => !l.isEmpty && l.all Char.isDigit

/-- Does the field parse as an integer (pandas `int64` inference)? -/
def isIntLit (s : String) : Bool :=
  isSignedDigits s.toList

/-- Digits with at most one decimal point and at least one digit. -/
def isMantissa (l : List Char) : Bool :=
  match l.dropWhile Char.isDigit with
  | [] => !l.isEmpty
  | '.' :: rest => rest.all Char.isDigit && (!(l.takeWhile Char.isDigit).isEmpty || !rest.isEmpty)
  | _ => false

/-- An optional exponent part `e`/`E` with signed digits. -/
def isExpPart (l : List Char) : Bool :=
  match l with
  | [] => true
  | 'e' :: r => isSignedDigits r
  | 'E' :: r => isSignedDigits r
  | _ => false

/-- Mantissa-and-exponent split at the first `e`/`E`. -/
def notExpChar (c : Char) : Bool :=
  !(c == 'e' || c == 'E')

/-- Unsigned float literal body. -/
def isFloatBody (l : List Char) : Bool :=
  isMantissa (l.takeWhile notExpChar) && isExpPart (l.dropWhile notExpChar)

/-- Does the field parse as a float (pandas `float64` inference for the
standard decimal/exponent forms)? -/
def isFloatLit (s : String) : Bool :=
  match s.toList with
  | '+' :: rest => isFloatBody rest
  | '-' :: rest => isFloatBody rest
  | l => isFloatBody l

/-- The strings pandas recognises as booleans. -/
def isBoolLit (s : String) : Bool :=
  ["True", "TRUE", "False", "FALSE"].contains s

/-- The value of an integer field. -/
def parseIntLit (s : String) : Int :=
  match s.toList with
  | '+' :: rest => (digitsToNat rest : Int)
  | '-' :: rest => -(digitsToNat rest : Int)
  | l => (digitsToNat l : Int)

/-- The exponent of a float literal body. -/
def parseExp (l : List Char) : Int :=
  match l with
  | 'e' :: '-' :: d => -(digitsToNat d : Int)
  | 'E' :: '-' :: d => -(digitsToNat d : Int)
  | 'e' :: '+' :: d => (digitsToNat d : Int)
  | 'E' :: '+' :: d => (digitsToNat d : Int)
  | 'e' :: d => (digitsToNat d : Int)
  | 'E' :: d => (digitsToNat d : Int)
  | _ => 0

/-- Unsigned float literal value. -/
def parseFloatPos (l : List Char) : ℚ :=
  parseDec (l.takeWhile notExpChar) * (10 : ℚ) ^ parseExp (l.dropWhile notExpChar)

/-- The value of a float field (exact rational of the literal). -/
def parseFloatLit (s : String) : ℚ :=
  match s.toList with
  | '-' :: rest => -(parseFloatPos rest)
  | '+' :: rest => parseFloatPos rest
  | l => parseFloatPos l

/-- The dtype `read_csv` infers for one column. -/
inductive ColMode where
  | int | float | bool | obj
deriving Repr, DecidableEq

/-- pandas column inference: all non-NA fields integers → `int64`
(upgraded to `float64` if any NA is present), else all floats →
`float64`, else all booleans with no NA → `bool`, else object (strings,
with NA fields still replaced by `NaN`). -/
def colMode (col : List String) : ColMode :=
  let nonNA := col.filter (fun s => !(isNA s))
  if nonNA.all isIntLit then (if col.any isNA then ColMode.float else ColMode.int)
  else if nonNA.all isFloatLit then ColMode.float
  else if nonNA.all isBoolLit && !(col.any isNA) then ColMode.bool
  else ColMode.obj

/-- One cell under the column's inferred dtype. -/
def applyMode (m : ColMode) (s : String) : Cell :=
  if isNA s then Cell.nan
  else
    match m with
    | ColMode.int => Cell.int (parseIntLit s)
    | ColMode.float => Cell.float (parseFloatLit s)
    | ColMode.bool => Cell.bool (["True", "TRUE"].contains s)
    | ColMode.obj => Cell.str s

/-- A row of `pd.read_csv(filepath)` (cells, after inference). -/
structure RecordC where
  titulo : Cell
  preco : Cell
  url : Cell
  loja : Cell
  imagem : Cell
deriving Repr, DecidableEq

/-- `pd.read_csv(filepath)` on a file written by `save_to_csv`. -/
def read_csv (f : CsvFile) : List RecordC :=
  let mt := colMode (f.rows.map Anuncio.titulo)
  let mp := colMode (f.rows.map Anuncio.preco)
  let mu := colMode (f.rows.map Anuncio.url)
  let ml := colMode (f.rows.map Anuncio.loja)
  let mi := colMode (f.rows.map Anuncio.imagem)
  f.rows.map (fun r =>
    ⟨applyMode mt r.titulo, applyMode mp r.preco, applyMode mu r.url,
      applyMode ml r.loja, applyMode mi r.imagem⟩)

/-- `load_and_sort_by_price(filepath)`: read the rows back, sort ascending
by `_price_to_float` of the `preco` cell, drop the auxiliary key column.
The code passes pandas' default `kind='quicksort'`, whose order on tied
keys is unspecified; the embedding uses a deterministic sort and no
theorem in this file depends on the relative order of tied rows. -/
def load_and_sort_by_price (f : CsvFile) : List RecordC :=
  (read_csv f).mergeSort (fun a b => keyLE (_price_to_float a.preco) (_price_to_float b.preco))

/-- The read-back image of a record none of whose fields is mangled by
type inference. -/
def strRecord (a : Anuncio) : RecordC :=
  ⟨Cell.str a.titulo, Cell.str a.preco, Cell.str a.url, Cell.str a.loja, Cell.str a.imagem⟩

/-- A field value that `read_csv` hands back unchanged as a string: not an
NA marker and not an integer, float or boolean literal. -/
def plainStr (s : String) : Bool :=
  !(isNA s) && !(isIntLit s) && !(isFloatLit s) && !(isBoolLit s)

/-- All five fields of the record survive read-back as strings. -/
def plainAnuncio (a : Anuncio) : Bool :=
  plainStr a.titulo && plainStr a.preco && plainStr a.url && plainStr a.loja && plainStr a.imagem

/-- Pointwise effect of a `replace` with single-character pattern and
replacement. -/
def replaceChar (a b c : Char) : Char :=
  if c = a then b else c

/-- The net `,` ↔ `.` separator swap achieved by the three chained
`replace` calls of the price formatting. -/
def sepSwap (c : Char) : Char :=
  if c = ',' then '.' else if c = '.' then ',' else c

/-! ### Helper lemmas -/

theorem mem_pyReplaceAux (fuel : Nat) (s pat rep : List Char) (c : Char)
    (h : c ∈ pyReplaceAux fuel s pat rep) : c ∈ s ∨ c ∈ rep := by
  induction fuel generalizing s with
  | zero => exact Or.inl h
  | succ fuel ih =>
    cases s with
    | nil => simp [pyReplaceAux] at h
    | cons a as =>
      rw [pyReplaceAux] at h
      by_cases hc : pat ≠ [] ∧ pat.isPrefixOf (a :: as) = true
      · rw [if_pos hc] at h
        rcases List.mem_append.mp h with h | h
        · exact Or.inr h
        · rcases ih _ h with h | h
          · exact Or.inl (List.mem_of_mem_drop h)
          · exact Or.inr h
      · rw [if_neg hc] at h
        rcases List.mem_cons.mp h with h | h
        · exact Or.inl (h ▸ List.mem_cons_self a as)
        · rcases ih _ h with h | h
          · exact Or.inl (List.mem_cons_of_mem a h)
          · exact Or.inr h

theorem mem_pyReplace (s pat rep : List Char) (c : Char)
    (h : c ∈ pyReplace s pat rep) : c ∈ s ∨ c ∈ rep :=
  mem_pyReplaceAux s.length s pat rep c h

theorem mem_price_text (s : String) (c : Char) (h : c ∈ price_text s) :
    c ∈ s.toList ∨ c = '.' := by
  rw [price_text] at h
  rcases mem_pyReplace _ _ _ _ h with h | h
  · rcases mem_pyReplace _ _ _ _ h with h | h
    · rcases mem_pyReplace _ _ _ _ h with h | h
      · rcases mem_pyReplace _ _ _ _ h with h | h
        · exact Or.inl h
        · simp at h
      · simp at h
    · simp at h
  · exact Or.inr (List.mem_singleton.mp h)

theorem firstNumber_eq_none (l : List Char) (h : ∀ c ∈ l, c.isDigit = false) :
    firstNumber l = none := by
  induction l with
  | nil => rfl
  | cons a as ih =>
    rw [firstNumber, if_neg]
    · exact ih fun c hc => h c (List.mem_cons_of_mem a hc)
    · simp [h a (List.mem_cons_self a as)]

/-! ### C3 -/

/-- C3: `_price_to_float` strips `R$`, spaces and dots, turns the comma
into a decimal point and takes the first numeric substring; in particular
`"R$ 1.899,00"` maps to `1899.00`, `"R$ 25.000,00"` to `25000.00`, and any
string without a digit (such as `""` or `"consultar"`) maps to positive
infinity. -/
theorem C3_price_key :
    _price_to_float_str "R$ 1.899,00" = PriceKey.val 1899 ∧
    _price_to_float_str "R$ 25.000,00" = PriceKey.val 25000 ∧
    _price_to_float_str "consultar" = PriceKey.inf ∧
    _price_to_float_str "" = PriceKey.inf ∧
    (∀ s : String, (∀ c ∈ s.toList, c.isDigit = false) → _price_to_float_str s = PriceKey.inf) := by
  refine ⟨?_, ?_, by decide, by decide, ?_⟩
  · have h : firstNumber (price_text "R$ 1.899,00") = some ("1899.00".toList) := by decide
    rw [_price_to_float_str, if_neg (by decide : ¬("R$ 1.899,00" = "")), h]
    have h2 : ("1899.00".toList.takeWhile Char.isDigit) = "1899".toList := by decide
    have h3 : ("1899.00".toList.dropWhile Char.isDigit) = '.' :: "00".toList := by decide
    simp only [parseDec, h2, h3]
    have h4 : digitsToNat ("1899".toList ++ "00".toList) = 189900 := by decide
    have h5 : ("00".toList).length = 2 := by decide
    rw [h4, h5]
    norm_num
  · have h : firstNumber (price_text "R$ 25.000,00") = some ("25000.00".toList) := by decide
    rw [_price_to_float_str, if_neg (by decide : ¬("R$ 25.000,00" = "")), h]
    have h2 : ("25000.00".toList.takeWhile Char.isDigit) = "25000".toList := by decide
    have h3 : ("25000.00".toList.dropWhile Char.isDigit) = '.' :: "00".toList := by decide
    simp only [parseDec, h2, h3]
    have h4 : digitsToNat ("25000".toList ++ "00".toList) = 2500000 := by decide
    have h5 : ("00".toList).length = 2 := by decide
    rw [h4, h5]
    norm_num
  · intro s hs
    by_cases h0 : s = ""
    · rw [_price_to_float_str, if_pos h0]
    · rw [_price_to_float_str, if_neg h0, firstNumber_eq_none]
      intro c hc
      rcases mem_price_text s c hc with h | h
      · exact hs c h
      · rw [h]; decide

/-- Witness for C3: the digit-free hypothesis holds at `"R$ --"` and the
theorem sends it to infinity. -/
theorem C3_price_key_witness : _price_to_float_str "R$ --" = PriceKey.inf :=
  C3_price_key.2.2.2.2 "R$ --" (by decide)

/-! ### C10 -/

/-- C10: `_price_to_float` is total over arbitrary cell values: every
non-string cell (for example the `NaN` pandas produces for an empty price
field) and the empty string map to positive infinity rather than raising. -/
theorem C10_price_total :
    (∀ c : Cell, cellIsStr c = false → _price_to_float c = PriceKey.inf) ∧
    _price_to_float (Cell.str "") = PriceKey.inf ∧
    _price_to_float Cell.nan = PriceKey.inf := by
  refine ⟨?_, by decide, by decide⟩
  intro c h
  cases c <;> simp [cellIsStr] at h ⊢ <;> rfl

/-- Witness for C10: the non-string hypothesis holds at an `int64` cell. -/
theorem C10_price_total_witness : _price_to_float (Cell.int 7) = PriceKey.inf :=
  C10_price_total.1 (Cell.int 7) rfl

/-! ### C4 -/

/-- C4: `save_to_csv` on an empty record sequence fails with the
empty-input error and leaves the target file exactly as it was (neither
created nor overwritten). -/
theorem C4_empty_write (fs : Option CsvFile) :
    save_to_csv [] fs = (some SaveError.emptyInput, fs) := by
  rfl

/-! ### C5 -/

theorem subRunsAux_all_bad (l : List Char) (h : ∀ c ∈ l, allowedChar c = false) :
    subRunsAux true l = [] ∧ (l ≠ [] → subRunsAux false l = ['_']) := by
  induction l with
  | nil => exact ⟨rfl, fun h' => absurd rfl h'⟩
  | cons a as ih =>
    have ha : allowedChar a = false := h a (List.mem_cons_self a as)
    have ih' := ih fun c hc => h c (List.mem_cons_of_mem a hc)
    constructor
    · simp [subRunsAux, ha, ih'.1]
    · intro _
      simp [subRunsAux, ha, ih'.1]

theorem reSub_all_bad (l : List Char) (h1 : l ≠ []) (h2 : ∀ c ∈ l, allowedChar c = false) :
    reSubNonAlnum l = ['_'] :=
  (subRunsAux_all_bad l h2).2 h1

theorem slugify_all_bad (l : List Char) (h1 : l ≠ []) (h2 : ∀ c ∈ l, allowedChar c = false) :
    _slugify l 60 = "imagem".toList := by
  have h := reSub_all_bad l h1 h2
  simp only [_slugify, h]
  decide

theorem slugify_length_le (l : List Char) (maxlen : Nat) :
    (_slugify l maxlen).length ≤ maxlen := by
  simp only [_slugify]
  split <;> simp [List.length_take]

theorem slugify_length_eq (l : List Char)
    (h : 60 ≤ (pyStripUnderscore (reSubNonAlnum l)).length) :
    (_slugify l 60).length = 60 := by
  have hne : pyStripUnderscore (reSubNonAlnum l) ≠ [] := by
    intro he
    rw [he] at h
    simp at h
  simp only [_slugify, if_neg hne, List.length_take]
  omega

/-- C5 (amended): the file name is `_slugify(title or produto_<idx>) ++
".jpg"` exactly as the claim describes the algorithm; a title made of
characters outside `[A-Za-z0-9_-]` yields the default-labeled
`imagem.jpg`; the base name is always at most 60 characters, and exactly
60 when the trimmed replacement result has at least 60 characters (a long
title whose slug collapses below 60 characters — e.g. one made of spaces —
yields a shorter base name, so "longer than 60 characters" alone does not
force a 60-character base). -/
theorem C5_filename (idx : Nat) (item : Anuncio) :
    (item.titulo ≠ "" → (∀ c ∈ item.titulo.toList, allowedChar c = false) →
      filenameFor idx item = "imagem.jpg".toList) ∧
    filenameFor idx item = _slugify (titleFor idx item).toList 60 ++ ".jpg".toList ∧
    (_slugify (titleFor idx item).toList 60).length ≤ 60 ∧
    (60 ≤ (pyStripUnderscore (reSubNonAlnum (titleFor idx item).toList)).length →
      (_slugify (titleFor idx item).toList 60).length = 60) := by
  refine ⟨?_, rfl, slugify_length_le _ 60, slugify_length_eq _⟩
  intro h1 h2
  have hnil : item.titulo.toList ≠ [] := by
    intro he
    apply h1
    cases ht : item.titulo with
    | mk d =>
      rw [ht] at he
      simp only [String.toList] at he
      rw [he] at ht ⊢
  rw [filenameFor, titleFor, if_neg h1, slugify_all_bad _ hnil h2]
  decide

/-- Witness for C5: a punctuation-only title gives `imagem.jpg`, and a
61-`a` title has a trimmed slug of length 61 ≥ 60 and a base truncated to
exactly 60. -/
theorem C5_filename_witness :
    filenameFor 1 ⟨"!!!", "", "", "", ""⟩ = "imagem.jpg".toList ∧
    (_slugify (titleFor 2 ⟨String.mk (List.replicate 61 'a'), "", "", "", ""⟩).toList 60).length = 60 :=
  ⟨(C5_filename 1 ⟨"!!!", "", "", "", ""⟩).1 (by decide) (by decide),
   (C5_filename 2 ⟨String.mk (List.replicate 61 'a'), "", "", "", ""⟩).2.2.2 (by decide)⟩

/-- Counterexample for C5 as stated: a title of 61 spaces is longer than
60 characters, yet the file name is `imagem.jpg`, whose base is 6
characters, not 60. -/
theorem C5_counterexample :
    60 < (String.mk (List.replicate 61 ' ')).length ∧
    filenameFor 1 ⟨String.mk (List.replicate 61 ' '), "", "", "", ""⟩ = "imagem.jpg".toList ∧
    (_slugify (String.mk (List.replicate 61 ' ')).toList 60).length ≠ 60 := by
  refine ⟨by decide, by decide, by decide⟩

/-! ### C6 -/

/-- C6: a record whose image URL field is empty produces exactly one
effect — a zero-byte file write at the computed name — and no HTTP
request, for any state of the network. -/
theorem C6_empty_image (net : String → Option (List Nat)) (idx : Nat) (item : Anuncio)
    (h : item.imagem = "") :
    downloadStep net idx item = [FsAction.writeFile (filenameFor idx item) []] ∧
    ∀ u, FsAction.httpGet u ∉ downloadStep net idx item := by
  have hstep : downloadStep net idx item = [FsAction.writeFile (filenameFor idx item) []] := by
    rw [downloadStep, if_pos h]
  refine ⟨hstep, fun u hu => ?_⟩
  rw [hstep] at hu
  simp at hu

/-- Witness for C6 at a concrete record with empty image URL. -/
theorem C6_empty_image_witness :
    downloadStep (fun _ => none) 1 ⟨"tv", "R$ 1,00", "u", "l", ""⟩ =
      [FsAction.writeFile (filenameFor 1 ⟨"tv", "R$ 1,00", "u", "l", ""⟩) []] ∧
    ∀ u, FsAction.httpGet u ∉ downloadStep (fun _ => none) 1 ⟨"tv", "R$ 1,00", "u", "l", ""⟩ :=
  C6_empty_image (fun _ => none) 1 ⟨"tv", "R$ 1,00", "u", "l", ""⟩ rfl

/-! ### C7 -/

/-- C7: with no usable credential (no parameter or empty parameter, empty
environment credential), `fetch_ads` returns the fixed fallback sample
sequence for every term and every network, so any two calls agree and the
network oracle is never consulted. -/
theorem C7_fallback (net net' : String → String → NetResult) (term term' : String)
    (api_key : Option String) (h : api_key = none ∨ api_key = some "") :
    fetch_ads net "" term api_key = _sample_data.map anuncioToJ ∧
    fetch_ads net "" term api_key = fetch_ads net' "" term' api_key := by
  have hc : pyOrStr api_key "" = "" := by
    rcases h with h | h <;> rw [h] <;> rfl
  have key : ∀ (n : String → String → NetResult) (t : String),
      fetch_ads n "" t api_key = _sample_data.map anuncioToJ := by
    intro n t
    simp [fetch_ads, hc]
  exact ⟨key net term, (key net term).trans (key net' term').symm⟩

/-- Witness for C7 at two different terms and networks with no
credential. -/
theorem C7_fallback_witness :
    fetch_ads (fun _ _ => NetResult.fail) "" "geladeira" none = _sample_data.map anuncioToJ ∧
    fetch_ads (fun _ _ => NetResult.fail) "" "geladeira" none =
      fetch_ads (fun _ _ => NetResult.ok []) "" "notebook" none :=
  C7_fallback (fun _ _ => NetResult.fail) (fun _ _ => NetResult.ok []) "geladeira" "notebook"
    none (Or.inl rfl)

/-! ### C9 -/

/-- C9: the fallback sample sequence is the 5 distinct hard-coded
listings repeated in order 5 times — 25 records, 5 distinct titles, and
hence only 5 distinct image file names. -/
theorem C9_sample_shape :
    _sample_data.length = 25 ∧
    _sample_data = exemplos ++ exemplos ++ exemplos ++ exemplos ++ exemplos ∧
    exemplos.length = 5 ∧
    exemplos.Nodup ∧
    (_sample_data.map Anuncio.titulo).dedup.length = 5 ∧
    ((List.enumFrom 1 _sample_data).map (fun p => filenameFor p.1 p.2)).dedup.length = 5 := by
  refine ⟨by decide, by decide, by decide, by decide, by decide, by decide⟩

/-! ### C8 -/

theorem pyReplaceAux_single (a b : Char) : ∀ (fuel : Nat) (s : List Char), s.length ≤ fuel →
    pyReplaceAux fuel s [a] [b] = s.map (replaceChar a b) := by
  intro fuel
  induction fuel with
  | zero =>
    intro s hs
    rw [Nat.le_zero, List.length_eq_zero] at hs
    rw [hs]
    rfl
  | succ fuel ih =>
    intro s hs
    cases s with
    | nil => rfl
    | cons c cs =>
      rw [pyReplaceAux, List.map_cons]
      by_cases hac : a = c
      · rw [if_pos ⟨by simp, by simp [List.isPrefixOf, hac]⟩]
        have hd : (c :: cs).drop [a].length = cs := by simp
        rw [hd, ih cs (by simpa using hs), replaceChar, if_pos hac.symm]
        rfl
      · rw [if_neg]
        · rw [ih cs (by simpa using hs), replaceChar, if_neg (fun h => hac h.symm)]
        · intro h
          have := h.2
          simp [List.isPrefixOf] at this
          exact hac this

theorem pyReplace_single (a b : Char) (s : List Char) :
    pyReplace s [a] [b] = s.map (replaceChar a b) :=
  pyReplaceAux_single a b s.length s le_rfl

theorem digitChar_isDigit (m : Nat) (h : m < 10) : (Nat.digitChar m).isDigit = true := by
  interval_cases m <;> decide

theorem mem_natDigitsAux (fuel : Nat) : ∀ (n : Nat) (acc : List Char) (c : Char),
    c ∈ natDigitsAux fuel n acc → c ∈ acc ∨ c.isDigit = true := by
  induction fuel with
  | zero => exact fun n acc c h => Or.inl h
  | succ fuel ih =>
    intro n acc c h
    rw [natDigitsAux] at h
    by_cases hn : n < 10
    · rw [if_pos hn] at h
      rcases List.mem_cons.mp h with h | h
      · exact Or.inr (h ▸ digitChar_isDigit n hn)
      · exact Or.inl h
    · rw [if_neg hn] at h
      rcases ih _ _ _ h with h | h
      · rcases List.mem_cons.mp h with h | h
        · exact Or.inr (h ▸ digitChar_isDigit _ (Nat.mod_lt n (by omega)))
        · exact Or.inl h
      · exact Or.inr h

theorem mem_natDigits (n : Nat) (c : Char) (h : c ∈ natDigits n) : c.isDigit = true := by
  rcases mem_natDigitsAux (n + 1) n [] c h with h | h
  · simp at h
  · exact h

theorem mem_group3rev (sep : Char) (l : List Char) (c : Char) (h : c ∈ group3rev sep l) :
    c ∈ l ∨ c = sep := by
  refine group3rev.induct sep (fun l => c ∈ group3rev sep l → c ∈ l ∨ c = sep) ?_ ?_ l h
  · intro d1 d2 d3 d4 rest ih hm
    rw [group3rev] at hm
    rcases List.mem_cons.mp hm with h1 | hm
    · exact Or.inl (by simp [h1])
    rcases List.mem_cons.mp hm with h1 | hm
    · exact Or.inl (by simp [h1])
    rcases List.mem_cons.mp hm with h1 | hm
    · exact Or.inl (by simp [h1])
    rcases List.mem_cons.mp hm with h1 | hm
    · exact Or.inr h1
    rcases ih hm with h1 | h1
    · exact Or.inl (List.mem_cons_of_mem _ (List.mem_cons_of_mem _ (List.mem_cons_of_mem _ h1)))
    · exact Or.inr h1
  · intro l hshape hm
    match l with
    | [] => exact Or.inl hm
    | [d1] => exact Or.inl hm
    | [d1, d2] => exact Or.inl hm
    | [d1, d2, d3] => exact Or.inl hm
    | d1 :: d2 :: d3 :: d4 :: rest => exact absurd rfl (hshape d1 d2 d3 d4 rest)

theorem map_group3rev (f : Char → Char) (sep : Char) (l : List Char) :
    (group3rev sep l).map f = group3rev (f sep) (l.map f) := by
  refine group3rev.induct sep
    (fun l => (group3rev sep l).map f = group3rev (f sep) (l.map f)) ?_ ?_ l
  · intro d1 d2 d3 d4 rest ih
    simp only [group3rev, List.map_cons, ih]
  · intro l hshape
    match l with
    | [] => rfl
    | [d1] => rfl
    | [d1, d2] => rfl
    | [d1, d2, d3] => rfl
    | d1 :: d2 :: d3 :: d4 :: rest => exact absurd rfl (hshape d1 d2 d3 d4 rest)

theorem sepSwap_digit (c : Char) (h : c.isDigit = true) : sepSwap c = c := by
  have h1 : c ≠ ',' := fun he => absurd h (by rw [he]; decide)
  have h2 : c ≠ '.' := fun he => absurd h (by rw [he]; decide)
  rw [sepSwap, if_neg h1, if_neg h2]

theorem map_sepSwap_digits (l : List Char) (h : ∀ c ∈ l, c.isDigit = true) :
    l.map sepSwap = l := by
  induction l with
  | nil => rfl
  | cons a as ih =>
    rw [List.map_cons, sepSwap_digit a (h a (List.mem_cons_self a as)),
      ih fun c hc => h c (List.mem_cons_of_mem a hc)]

theorem map_sepSwap_formatCents (neg : Bool) (cents : Nat) :
    (formatCents ',' '.' neg cents).map sepSwap = formatCents '.' ',' neg cents := by
  rw [formatCents, formatCents]
  simp only [List.map_append, List.map_cons]
  have hsign : (if neg then ['-'] else []).map sepSwap = (if neg then ['-'] else []) := by
    cases neg <;> rfl
  have hgrp : (group3 ',' (natDigits (cents / 100))).map sepSwap =
      group3 '.' (natDigits (cents / 100)) := by
    rw [group3, group3, List.map_reverse, map_group3rev, List.map_reverse,
      map_sepSwap_digits (natDigits (cents / 100)) (mem_natDigits (cents / 100))]
    rfl
  have htwo : (twoDigits (cents % 100)).map sepSwap = twoDigits (cents % 100) := by
    rw [twoDigits, List.map_cons, List.map_cons, List.map_nil,
      sepSwap_digit _ (digitChar_isDigit _ (by omega)),
      sepSwap_digit _ (digitChar_isDigit _ (by omega))]
  rw [hsign, hgrp, htwo]
  rfl

theorem formatCents_no_X (neg : Bool) (cents : Nat) :
    ∀ c ∈ formatCents ',' '.' neg cents, c ≠ 'X' := by
  intro c hc
  rw [formatCents] at hc
  simp only [List.mem_append, List.mem_cons] at hc
  rcases hc with (hc | hc) | hc | hc
  · cases neg with
    | true =>
      rcases List.mem_singleton.mp hc with rfl
      decide
    | false => simp at hc
  · rw [group3] at hc
    rcases mem_group3rev ',' _ c (List.mem_reverse.mp hc) with hd | hd
    · have : c.isDigit = true := mem_natDigits _ c (List.mem_reverse.mp hd)
      intro he
      rw [he] at this
      exact absurd this (by decide)
    · rw [hd]; decide
  · rw [hc]; decide
  · rw [twoDigits] at hc
    have : c.isDigit = true := by
      rcases List.mem_cons.mp hc with h1 | h1
      · exact h1 ▸ digitChar_isDigit _ (by omega)
      · rcases List.mem_singleton.mp h1 with rfl
        exact digitChar_isDigit _ (by omega)
    intro he
    rw [he] at this
    exact absurd this (by decide)

theorem replaceChain_eq_sepSwap (c : Char) (h : c ≠ 'X') :
    replaceChar 'X' '.' (replaceChar '.' ',' (replaceChar ',' 'X' c)) = sepSwap c := by
  by_cases h1 : c = ','
  · rw [h1]; decide
  by_cases h2 : c = '.'
  · rw [h2]; decide
  simp only [replaceChar, sepSwap, if_neg h1, if_neg h2, if_neg h]

theorem format_price_eq_spec (q : ℚ) : format_price q = brlCurrency_spec q := by
  rw [format_price, brlCurrency_spec]
  congr 1
  rw [pyReplace_single, pyReplace_single, pyReplace_single, List.map_map, List.map_map]
  have hnoX : ∀ c ∈ "R$ ".toList ++ pyFormatComma2f q, c ≠ 'X' := by
    intro c hc
    rcases List.mem_append.mp hc with hc | hc
    · have : c ∈ ['R', '$', ' '] := hc
      rcases List.mem_cons.mp this with rfl | this
      · decide
      rcases List.mem_cons.mp this with rfl | this
      · decide
      rcases List.mem_singleton.mp this with rfl
      decide
    · exact formatCents_no_X _ _ c hc
  have hcongr :
      List.map ((replaceChar 'X' '.' ∘ replaceChar '.' ',') ∘ replaceChar ',' 'X')
        ("R$ ".toList ++ pyFormatComma2f q) =
        List.map sepSwap ("R$ ".toList ++ pyFormatComma2f q) :=
    List.map_congr_left fun c hc => replaceChain_eq_sepSwap c (hnoX c hc)
  rw [hcongr, List.map_append]
  have hpre : ("R$ ".toList).map sepSwap = "R$ ".toList := by decide
  rw [hpre, pyFormatComma2f, map_sepSwap_formatCents]

theorem format_price_example : format_price ((123456 : ℚ) / 100) = "R$ 1.234,56" := by
  have habs : |((123456 : ℚ) / 100)| * 100 = (123456 : ℚ) := by
    rw [abs_of_pos (by norm_num)]
    norm_num
  have hneg : decide (((123456 : ℚ) / 100) < 0) = false := by
    rw [decide_eq_false_iff_not]
    norm_num
  have hround : roundHalfEven (123456 : ℚ) = 123456 := by
    rw [roundHalfEven]
    norm_num
  rw [format_price, pyFormatComma2f, habs, hneg, hround]
  decide

/-- C8 (amended): when mapping upstream results, every upstream price that
the `or`-chain selects as a number is rendered as the locale currency
string (`'R$ '`, two decimal digits, `'.'` thousands separator, `','`
decimal separator — e.g. `1234.56 → "R$ 1.234,56"`); every selected
non-numeric price passes through as its text form; missing sub-fields
(title, link, store, image) degrade to the empty string.  (Amendment: a
numeric price equal to `0` is falsy, so the `or`-chain treats it as
missing — it falls back to `extracted_price` or the empty string instead
of being formatted.) -/
theorem C8_upstream_mapping (obj : ShoppingResult) :
    format_price ((123456 : ℚ) / 100) = "R$ 1.234,56" ∧
    (∀ q : ℚ, selectedPrice obj = JVal.jnum q →
      (mapResult obj).preco = brlCurrency_spec q) ∧
    (∀ s : String, selectedPrice obj = JVal.jstr s → (mapResult obj).preco = s) ∧
    (obj.title = none → (mapResult obj).titulo = JVal.jstr "") ∧
    (obj.product_link = none → obj.link = none → (mapResult obj).url = JVal.jstr "") ∧
    (obj.source = none → obj.merchant = none → (mapResult obj).loja = JVal.jstr "") ∧
    (obj.thumbnail = none → obj.image = none → (mapResult obj).imagem = JVal.jstr "") := by
  refine ⟨format_price_example, ?_, ?_, ?_, ?_, ?_, ?_⟩
  · intro q hq
    show mapPrecoStr (selectedPrice obj) = _
    rw [hq]
    exact format_price_eq_spec q
  · intro s hs
    show mapPrecoStr (selectedPrice obj) = _
    rw [hs]
    rfl
  · intro h
    show obj.title.getD (JVal.jstr "") = _
    rw [h]
    rfl
  · intro h1 h2
    show orDefault obj.product_link (orDefault obj.link (JVal.jstr "")) = _
    rw [h1, h2]
    rfl
  · intro h1 h2
    show orDefault obj.source (orDefault obj.merchant (JVal.jstr "")) = _
    rw [h1, h2]
    rfl
  · intro h1 h2
    show orDefault obj.thumbnail (orDefault obj.image (JVal.jstr "")) = _
    rw [h1, h2]
    rfl

/-- Witness for C8 at concrete upstream objects: an integer price `1234`,
a textual price, and an object with all sub-fields missing. -/
theorem C8_upstream_mapping_witness :
    (mapResult ⟨none, some (JVal.jnum 1234), none, none, none, none, none, none, none⟩).preco =
      brlCurrency_spec 1234 ∧
    (mapResult ⟨none, some (JVal.jstr "consultar"), none, none, none, none, none, none,
      none⟩).preco = "consultar" ∧
    (mapResult ⟨none, some (JVal.jstr "consultar"), none, none, none, none, none, none,
      none⟩).titulo = JVal.jstr "" :=
  ⟨(C8_upstream_mapping ⟨none, some (JVal.jnum 1234), none, none, none, none, none, none,
      none⟩).2.1 1234 rfl,
   (C8_upstream_mapping ⟨none, some (JVal.jstr "consultar"), none, none, none, none, none,
      none, none⟩).2.2.1 "consultar" rfl,
   (C8_upstream_mapping ⟨none, some (JVal.jstr "consultar"), none, none, none, none, none,
      none, none⟩).2.2.2.1 rfl⟩

/-- Counterexample for C8 as stated: the upstream price value `0` is
numeric, yet the mapped price field is the empty string (the falsy `0`
falls through the `or`-chain), not the locale string `"R$ 0,00"`. -/
theorem C8_counterexample :
    (⟨none, some (JVal.jnum 0), none, none, none, none, none, none, none⟩ :
      ShoppingResult).price = some (JVal.jnum 0) ∧
    (mapResult ⟨none, some (JVal.jnum 0), none, none, none, none, none, none, none⟩).preco =
      "" ∧
    brlCurrency_spec 0 = "R$ 0,00" ∧
    ("" : String) ≠ "R$ 0,00" := by
  refine ⟨rfl, rfl, ?_, by decide⟩
  · have h1 : |(0 : ℚ)| * 100 = (0 : ℚ) := by norm_num
    have h2 : roundHalfEven (0 : ℚ) = 0 := by
      rw [roundHalfEven]
      norm_num
    have h3 : decide ((0 : ℚ) < 0) = false := by
      rw [decide_eq_false_iff_not]
      norm_num
    rw [brlCurrency_spec, h1, h2, h3]
    decide

/-! ### C2 -/

theorem plainStr_spec (s : String) (h : plainStr s = true) :
    isNA s = false ∧ isIntLit s = false ∧ isFloatLit s = false ∧ isBoolLit s = false := by
  rw [plainStr] at h
  simp only [Bool.and_eq_true, Bool.not_eq_true'] at h
  exact ⟨h.1.1.1, h.1.1.2, h.1.2, h.2⟩

theorem plainAnuncio_spec (a : Anuncio) (h : plainAnuncio a = true) :
    plainStr a.titulo = true ∧ plainStr a.preco = true ∧ plainStr a.url = true ∧
      plainStr a.loja = true ∧ plainStr a.imagem = true := by
  rw [plainAnuncio] at h
  simp only [Bool.and_eq_true] at h
  exact ⟨h.1.1.1.1, h.1.1.1.2, h.1.1.2, h.1.2, h.2⟩

theorem colMode_obj (col : List String) (hne : col ≠ [])
    (h : ∀ s ∈ col, plainStr s = true) : colMode col = ColMode.obj := by
  obtain ⟨s0, hs0⟩ := List.exists_mem_of_ne_nil col hne
  have hfilter : col.filter (fun s => !(isNA s)) = col :=
    List.filter_eq_self.mpr fun s hs => by rw [(plainStr_spec s (h s hs)).1]; rfl
  have hint : ¬(col.all isIntLit = true) := fun hall =>
    absurd (List.all_eq_true.mp hall s0 hs0)
      (by rw [(plainStr_spec s0 (h s0 hs0)).2.1]; exact Bool.false_ne_true)
  have hfloat : ¬(col.all isFloatLit = true) := fun hall =>
    absurd (List.all_eq_true.mp hall s0 hs0)
      (by rw [(plainStr_spec s0 (h s0 hs0)).2.2.1]; exact Bool.false_ne_true)
  have hbool : ¬((col.all isBoolLit && !(col.any isNA)) = true) := fun hall => by
    rw [Bool.and_eq_true] at hall
    exact absurd (List.all_eq_true.mp hall.1 s0 hs0)
      (by rw [(plainStr_spec s0 (h s0 hs0)).2.2.2]; exact Bool.false_ne_true)
  simp only [colMode, hfilter]
  rw [if_neg hint, if_neg hfloat, if_neg hbool]

theorem applyMode_obj_plain (s : String) (hps : plainStr s = true) :
    applyMode ColMode.obj s = Cell.str s := by
  rw [applyMode, if_neg]
  rw [(plainStr_spec s hps).1]
  exact Bool.false_ne_true

theorem read_csv_plain (items : List Anuncio) (hne : items ≠ [])
    (h : ∀ a ∈ items, plainAnuncio a = true) :
    read_csv ⟨items⟩ = items.map strRecord := by
  have hmapne : ∀ f : Anuncio → String, items.map f ≠ [] := fun f he =>
    hne (List.map_eq_nil_iff.mp he)
  have hcol : ∀ (f : Anuncio → String), (∀ a : Anuncio, plainAnuncio a = true →
      plainStr (f a) = true) → colMode (items.map f) = ColMode.obj := by
    intro f hf
    apply colMode_obj _ (hmapne f)
    intro s hs
    rcases List.mem_map.mp hs with ⟨a, ha, rfl⟩
    exact hf a (h a ha)
  have ht := hcol Anuncio.titulo fun a ha => (plainAnuncio_spec a ha).1
  have hp := hcol Anuncio.preco fun a ha => (plainAnuncio_spec a ha).2.1
  have hu := hcol Anuncio.url fun a ha => (plainAnuncio_spec a ha).2.2.1
  have hl := hcol Anuncio.loja fun a ha => (plainAnuncio_spec a ha).2.2.2.1
  have hi := hcol Anuncio.imagem fun a ha => (plainAnuncio_spec a ha).2.2.2.2
  simp only [read_csv, ht, hp, hu, hl, hi]
  apply List.map_congr_left
  intro a ha
  have hs := plainAnuncio_spec a (h a ha)
  rw [applyMode_obj_plain _ hs.1, applyMode_obj_plain _ hs.2.1, applyMode_obj_plain _ hs.2.2.1,
    applyMode_obj_plain _ hs.2.2.2.1, applyMode_obj_plain _ hs.2.2.2.2]
  rfl

/-- C2 (amended): for every non-empty sequence of records all of whose
field values survive the CSV read-back as strings (they are not NA
markers such as the empty string, and not integer, float or boolean
literals), writing with `save_to_csv` and reading back with
`load_and_sort_by_price` succeeds and yields, ignoring order, exactly the
same five field values for every record — no field dropped or renamed.
(Amendment: a field equal to the empty string — e.g. an empty image URL —
comes back as the float `NaN`, not as `""`, so the claim's unrestricted
form fails.) -/
theorem C2_roundtrip (items : List Anuncio) (fs : Option CsvFile) (hne : items ≠ [])
    (h : ∀ a ∈ items, plainAnuncio a = true) :
    (save_to_csv items fs).1 = none ∧
    (save_to_csv items fs).2 = some ⟨items⟩ ∧
    (load_and_sort_by_price ⟨items⟩).Perm (items.map strRecord) := by
  refine ⟨?_, ?_, ?_⟩
  · rw [save_to_csv, if_neg hne]
  · rw [save_to_csv, if_neg hne]
  · rw [load_and_sort_by_price, read_csv_plain items hne h]
    exact List.mergeSort_perm _ _

/-- Witness for C2 at a one-record list whose fields are all plain
strings. -/
theorem C2_roundtrip_witness :
    (save_to_csv [⟨"Geladeira Consul Frost Free 340 litros", "R$ 1.899,00",
      "https://www.lojaexemplo.com/produto2", "Loja Exemplo 2",
      "https://via.placeholder.com/150?text=Produto2"⟩] none).1 = none ∧
    (save_to_csv [⟨"Geladeira Consul Frost Free 340 litros", "R$ 1.899,00",
      "https://www.lojaexemplo.com/produto2", "Loja Exemplo 2",
      "https://via.placeholder.com/150?text=Produto2"⟩] none).2 =
      some ⟨[⟨"Geladeira Consul Frost Free 340 litros", "R$ 1.899,00",
        "https://www.lojaexemplo.com/produto2", "Loja Exemplo 2",
        "https://via.placeholder.com/150?text=Produto2"⟩]⟩ ∧
    (load_and_sort_by_price ⟨[⟨"Geladeira Consul Frost Free 340 litros", "R$ 1.899,00",
      "https://www.lojaexemplo.com/produto2", "Loja Exemplo 2",
      "https://via.placeholder.com/150?text=Produto2"⟩]⟩).Perm
      ([⟨"Geladeira Consul Frost Free 340 litros", "R$ 1.899,00",
        "https://www.lojaexemplo.com/produto2", "Loja Exemplo 2",
        "https://via.placeholder.com/150?text=Produto2"⟩].map strRecord) :=
  C2_roundtrip [⟨"Geladeira Consul Frost Free 340 litros", "R$ 1.899,00",
    "https://www.lojaexemplo.com/produto2", "Loja Exemplo 2",
    "https://via.placeholder.com/150?text=Produto2"⟩] none (by decide) (by decide)

/-- Counterexample for C2 as stated: a record whose image URL is the empty
string reads back with `NaN` in that field, which is not the original
string value `""`. -/
theorem C2_counterexample :
    (save_to_csv [⟨"Geladeira", "R$ 1,00", "u", "l", ""⟩] none).2 =
      some ⟨[⟨"Geladeira", "R$ 1,00", "u", "l", ""⟩]⟩ ∧
    load_and_sort_by_price ⟨[⟨"Geladeira", "R$ 1,00", "u", "l", ""⟩]⟩ =
      [⟨Cell.str "Geladeira", Cell.str "R$ 1,00", Cell.str "u", Cell.str "l", Cell.nan⟩] ∧
    Cell.nan ≠ Cell.str "" := by
  refine ⟨by decide, ?_, by decide⟩
  rw [load_and_sort_by_price]
  have hr : read_csv ⟨[⟨"Geladeira", "R$ 1,00", "u", "l", ""⟩]⟩ =
      [⟨Cell.str "Geladeira", Cell.str "R$ 1,00", Cell.str "u", Cell.str "l", Cell.nan⟩] := by
    decide
  rw [hr, List.mergeSort_singleton]
